import Mathlib

/-!
Shallow embedding of the asynchronous task subsystem of the ExpressTest
repository: the file-backed import task store (`src/utils/importTaskManager.js`),
the database-backed export task store and export producer
(`src/utils/exportHandlers.js`), the import producer
(`src/utils/importHandlers.js`), and the import upload route
(`src/unnamed/part_002`).

Machine numbers are modelled as `Nat` (all counters in the source are
non-negative integers and JavaScript `Math.round`/`Math.min` on them is
exact), timestamps as epoch milliseconds in `Nat`, and partial update
objects as records of `Option` fields merged by `Object.assign`.
-/

/-- Task status strings used by both task managers:
`pending`, `processing`, `completed`, `failed`. -/
inductive Status where
  | pending
  | processing
  | completed
  | failed
deriving DecidableEq, Repr

/-- A persisted task record: the union of the fields used by the import
task manager (JSON file contents) and the export task manager (DB row).
`errors` entries are modelled as (record position, message) pairs, mirroring
the source strings `第 ${processedCount} 行: ${error.message}`. -/
structure TaskRec where
  taskId : String
  status : Status
  progress : Nat
  format : String
  fileName : Option String
  filePath : Option String
  error : Option String
  searchName : Option String
  totalRecords : Nat
  processedRecords : Nat
  successRecords : Nat
  failedRecords : Nat
  errors : List (Nat × String)
  createdAt : Nat
deriving DecidableEq, Repr

/-- A partial update object (`updates`) as passed to `updateTask`:
`none` models an absent (`undefined`) field. -/
structure TaskUpdate where
  status : Option Status
  progress : Option Nat
  format : Option String
  fileName : Option String
  filePath : Option String
  error : Option String
  totalRecords : Option Nat
  processedRecords : Option Nat
  successRecords : Option Nat
  failedRecords : Option Nat
deriving DecidableEq, Repr

/-- The empty update object (every field absent). -/
def TaskUpdate.none : TaskUpdate :=
  ⟨Option.none, Option.none, Option.none, Option.none, Option.none,
   Option.none, Option.none, Option.none, Option.none, Option.none⟩

/-- Semantics of `Object.assign(task, updates)`: each field present in `updates`
replaces the stored one; absent fields are kept. -/
def applyUpdates (t : TaskRec) (u : TaskUpdate) : TaskRec :=
  { t with
    status := u.status.getD t.status
    progress := u.progress.getD t.progress
    format := u.format.getD t.format
    fileName := (u.fileName.map some).getD t.fileName
    filePath := (u.filePath.map some).getD t.filePath
    error := (u.error.map some).getD t.error
    totalRecords := u.totalRecords.getD t.totalRecords
    processedRecords := u.processedRecords.getD t.processedRecords
    successRecords := u.successRecords.getD t.successRecords
    failedRecords := u.failedRecords.getD t.failedRecords }

/-- Semantics of `Math.round(num / den)` for non-negative operands: round half up,
computed exactly on naturals as `⌊(num/den) + 1/2⌋ = (2*num + den) / (2*den)`. -/
def roundHalfUp (num den : Nat) : Nat :=
  (2 * num + den) / (2 * den)

/-- The expression `Math.min(100, Math.round((processed / total) * 100))` — the progress
expression shared verbatim by both task managers' `updateTask`. -/
def jsProgress (processed total : Nat) : Nat :=
  min 100 (roundHalfUp (processed * 100) total)

namespace ImportTaskManager

/-- Function `createTask(format, fileName)` from `importTaskManager.js`: the fresh
record inserted for a new import task (the generated id and the clock are
taken as parameters). -/
def createTask (taskId format fileName : String) (now : Nat) : TaskRec :=
  { taskId := taskId
    status := .pending
    progress := 0
    format := format
    fileName := some fileName
    filePath := Option.none
    error := Option.none
    searchName := Option.none
    totalRecords := 0
    processedRecords := 0
    successRecords := 0
    failedRecords := 0
    errors := []
    createdAt := now }

/-- The progress recomputation inside `ImportTaskManager.updateTask`:
`if (task.totalRecords > 0) task.progress = Math.min(100, Math.round((task.processedRecords / task.totalRecords) * 100))`.
When `totalRecords` is 0 the stored progress is left unchanged. -/
def recomputeProgress (t : TaskRec) : TaskRec :=
  if 0 < t.totalRecords then
    { t with progress := jsProgress t.processedRecords t.totalRecords }
  else t

/-- Method `ImportTaskManager.updateTask(taskId, updates)` acting on the fetched
record: `Object.assign(task, updates)` followed by the unconditional
progress recomputation, then the result is persisted. -/
def updateTask (t : TaskRec) (u : TaskUpdate) : TaskRec :=
  recomputeProgress (applyUpdates t u)

/-- Method `ImportTaskManager.addError(taskId, error)` acting on the fetched
record: `task.errors.push(error); task.failedRecords++`. -/
def addError (t : TaskRec) (e : Nat × String) : TaskRec :=
  { t with errors := t.errors ++ [e], failedRecords := t.failedRecords + 1 }

/-- Retention window of 24 hours in milliseconds (`expireTime` in `cleanupExpiredTasks`). -/
def expireTimeMs : Nat := 24 * 60 * 60 * 1000

/-- The per-task survival test of `ImportTaskManager.cleanupExpiredTasks`:
a task is deleted iff `now - task.createdAt > expireTime` (date difference
in milliseconds); there is no status guard. -/
def survivesSweep (now : Nat) (t : TaskRec) : Bool :=
  decide (now - t.createdAt ≤ expireTimeMs)

/-- The sanitizer `safeTaskId` from `_getTaskFilePath`:
`taskId.replace(/[^a-zA-Z0-9_-]/g, '_')`. -/
def safeTaskId (taskId : String) : String :=
  String.mk (taskId.data.map fun c =>
    if c.isAlphanum || c == '_' || c == '-' then c else '_')

/-- The manager's two-level storage: the in-memory `Map` keyed by the raw
taskId, and the task files keyed by the sanitized file stem
(`_writeTaskToFile` stores a task under `safeTaskId task.taskId`). -/
structure StoreState where
  memory : String → Option TaskRec
  files : String → Option TaskRec

/-- Method `ImportTaskManager.getTask(taskId)`: the memory cache is consulted
first; on a miss, `_readTaskFromFile` reads the file at
`_getTaskFilePath(taskId)`, i.e. the entry keyed by `safeTaskId taskId`. -/
def getTask (st : StoreState) (taskId : String) : Option TaskRec :=
  match st.memory taskId with
  | some t => some t
  | Option.none => st.files (safeTaskId taskId)

/-- Method `ImportTaskManager.cleanupExpiredTasks` over the whole store: both the
memory map and the task-file directory are swept purely by age. -/
def cleanupExpiredTasks (now : Nat) (st : StoreState) : StoreState :=
  { memory := fun k => (st.memory k).bind fun t =>
      if survivesSweep now t then some t else Option.none
    files := fun k => (st.files k).bind fun t =>
      if survivesSweep now t then some t else Option.none }

end ImportTaskManager

namespace ExportTaskManager

/-- Method `ExportTaskManager.updateTask(taskId, updates)` acting on the current
row `t`: when `updates.progress` is absent and a counter field is present,
`updates.progress` is filled in from the (possibly updated) counters —
only when the resulting `totalRecords` is positive — and the update is
then applied to the row. An explicitly given `progress` is used as-is. -/
def updateTask (t : TaskRec) (u : TaskUpdate) : TaskRec :=
  let u' :=
    if u.progress = Option.none ∧
        (u.processedRecords ≠ Option.none ∨ u.totalRecords ≠ Option.none) then
      let total := u.totalRecords.getD t.totalRecords
      let processed := u.processedRecords.getD t.processedRecords
      if 0 < total then { u with progress := some (jsProgress processed total) }
      else u
    else u
  applyUpdates t u'

/-- The row-survival test of `ExportTaskManager.cleanupExpiredTasks`:
`deleteMany({ where: { createdAt: { lt: now - 24h } } })` — a row is
deleted iff `createdAt < now - expireTime`, with no status guard. -/
def survivesSweep (now : Nat) (t : TaskRec) : Bool :=
  decide (¬ t.createdAt < now - ImportTaskManager.expireTimeMs)

/-- Method `ExportTaskManager.getTask(taskId)` over the task table, modelled as a
partial map from taskId to row: `findUnique({ where: { taskId } })`. -/
def getTask (store : String → Option TaskRec) (taskId : String) : Option TaskRec :=
  store taskId

/-- Method `ExportTaskManager.cleanupExpiredTasks` over the task table. -/
def cleanupExpiredTasks (now : Nat) (store : String → Option TaskRec) :
    String → Option TaskRec :=
  fun k => (store k).bind fun t =>
    if survivesSweep now t then some t else Option.none

end ExportTaskManager

/-! ## Import producer (`src/utils/importHandlers.js`) -/

/-- Semantics of JavaScript `String.prototype.trim()`: leading and
trailing whitespace removed (computed on the character list so that it
evaluates by kernel reduction). -/
def jsTrim (s : String) : String :=
  String.mk (((s.data.dropWhile Char.isWhitespace).reverse.dropWhile
    Char.isWhitespace).reverse)

/-- One parsed candidate record as consumed by the `importUsers` loop:
its resolved `name` and the outcome the record store would give its
insert (`some msg` = the insert throws with that message, `none` = the
insert succeeds). The store is an external collaborator. -/
structure ImportRecord where
  name : String
  storeErr : Option String
deriving DecidableEq, Repr

/-- The failure of one loop iteration of `importUsers`: validation
(`if (!userData.name || ... || userData.name.trim() === '') throw '用户名不能为空'`)
is checked before the insert is attempted; a valid record fails iff its
insert fails. `none` means the record is counted as a success. -/
def recordFailure (r : ImportRecord) : Option String :=
  if jsTrim r.name = "" then some "用户名不能为空" else r.storeErr

/-- Whether a record fails (validation or store error). -/
def recordFails (r : ImportRecord) : Bool :=
  (recordFailure r).isSome

/-- The 1-based positions (with messages) of the failing records, starting
after `n` already-processed records: the error entries `addError` appends. -/
def failingEntriesFrom : Nat → List ImportRecord → List (Nat × String)
  | _, [] => []
  | n, r :: rs =>
    match recordFailure r with
    | some msg => (n + 1, msg) :: failingEntriesFrom (n + 1) rs
    | Option.none => failingEntriesFrom (n + 1) rs

/-- The per-record counter update issued after every record:
`updateTask(taskId, { processedRecords, successRecords, failedRecords })`. -/
def countersUpdate (processed succ fail : Nat) : TaskUpdate :=
  { TaskUpdate.none with
    processedRecords := some processed
    successRecords := some succ
    failedRecords := some fail }

/-- The transition to Processing issued by `importUsers` once the file is
parsed: `{ status: 'processing', totalRecords, processedRecords: 0, progress: 0 }`. -/
def processingUpdate (total : Nat) : TaskUpdate :=
  { TaskUpdate.none with
    status := some .processing
    totalRecords := some total
    processedRecords := some 0
    progress := some 0 }

/-- The final update of a successful `importUsers` run:
`{ status: 'completed', progress: 100, processedRecords: totalRecords, successRecords, failedRecords }`. -/
def completedUpdate (total succ fail : Nat) : TaskUpdate :=
  { TaskUpdate.none with
    status := some .completed
    progress := some 100
    processedRecords := some total
    successRecords := some succ
    failedRecords := some fail }

/-- The catch-all failure update of `importUsers`:
`{ status: 'failed', error: error.message }`. -/
def failedUpdate (msg : String) : TaskUpdate :=
  { TaskUpdate.none with status := some .failed, error := some msg }

/-- The per-record loop of `importUsers`, threading the task state and the
local `successCount`/`failCount` counters (`processed` is the number of
records already consumed, i.e. `processedCount` before this iteration).
On a failing record, `addError` appends `第 ${processedCount} 行: ${message}`
and then the counter update is persisted; on success only the counter
update is persisted. Returns the final task state and both counters.
(The `batchSize = 100` slicing in the source only chunks the very same
sequential iteration and is dropped.) -/
def importLoop : TaskRec → Nat → Nat → Nat → List ImportRecord → TaskRec × Nat × Nat
  | t, _, succ, fail, [] => (t, succ, fail)
  | t, processed, succ, fail, r :: rs =>
    let processed' := processed + 1
    match recordFailure r with
    | some msg =>
      let t1 := ImportTaskManager.addError t (processed', msg)
      let t2 := ImportTaskManager.updateTask t1 (countersUpdate processed' succ (fail + 1))
      importLoop t2 processed' succ (fail + 1) rs
    | Option.none =>
      let t2 := ImportTaskManager.updateTask t (countersUpdate processed' (succ + 1) fail)
      importLoop t2 processed' (succ + 1) fail rs

/-- Function `importUsers` from the point where the file has been parsed into
`records`: the empty-file check, the Processing transition, the
per-record loop, and the final Completed update; any thrown error is
caught and persisted as a Failed update. -/
def importUsersRun (t0 : TaskRec) (records : List ImportRecord) : TaskRec :=
  if records.isEmpty then
    ImportTaskManager.updateTask t0 (failedUpdate "文件中没有有效的数据")
  else
    let t1 := ImportTaskManager.updateTask t0 (processingUpdate records.length)
    let r := importLoop t1 0 0 0 records
    ImportTaskManager.updateTask r.1 (completedUpdate records.length r.2.1 r.2.2)

/-- One element of an uploaded JSON array, as seen by `parseJSONFile`:
`some s` when `item.name || item.用户名 || item['用户名']` resolves to the
truthy string `s`, `none` when no truthy name key is present. -/
abbrev JsonItem := Option String

/-- Function `parseJSONFile` on a parsed JSON array, from index `i`: the first item
without a resolvable name throws `第 ${index+1} 行缺少用户名字段`; otherwise
each name is trimmed and items whose trimmed name is empty are dropped by
the final `.filter(item => item !== null && item.name)`. -/
def parseJSONItems : Nat → List JsonItem → Except String (List String)
  | _, [] => .ok []
  | i, Option.none :: _ => .error ("第 " ++ toString (i + 1) ++ " 行缺少用户名字段")
  | i, some n :: rest =>
    match parseJSONItems (i + 1) rest with
    | .error e => .error e
    | .ok ns => .ok (if jsTrim n = "" then ns else jsTrim n :: ns)

/-- An uploaded `.json` import file: either one that `JSON.parse` rejects,
or a bare array of objects with their resolved name values. -/
inductive UploadedJson where
  | malformed
  | arr (items : List JsonItem)

/-- Function `countRecords(filePath, 'json')`: `JSON.parse` then the array length —
no name-column validation at all. A malformed file throws
`统计数据条数失败: ...`. -/
def countRecordsJson : UploadedJson → Except String Nat
  | .malformed => .error "统计数据条数失败"
  | .arr items => .ok items.length

/-- Full `importUsers(prisma, filePath, 'json', taskId)` on an uploaded
JSON array: parse, then the post-parse run; a parse error is rethrown as
`解析JSON文件失败: ...`, caught by the outer handler and persisted as a
Failed update. `store n` is the outcome of the insert of the n-th
(0-based) parsed record. -/
def importUsersJson (t0 : TaskRec) (items : List JsonItem)
    (store : Nat → Option String) : TaskRec :=
  match parseJSONItems 0 items with
  | .error m => ImportTaskManager.updateTask t0 (failedUpdate ("解析JSON文件失败: " ++ m))
  | .ok names => importUsersRun t0 (names.mapIdx fun i n => ⟨n, store i⟩)

/-- The outcome of `POST /api/import` (`src/unnamed/part_002`) for a
`.json` upload: either a synchronous 400 response produced before any task
exists, or a created task together with its final persisted state after
the dispatched `importUsers` run. -/
inductive UploadOutcome where
  | syncError (msg : String)
  | taskFinal (t : TaskRec)
deriving DecidableEq

/-- The import upload route for a `.json` file: `countRecords` is run
first and its failure is returned synchronously as a 400 with
`文件解析失败: ...` (the file is deleted, no task is created); when it
succeeds, the task is created and `importUsers` is dispatched. -/
def importUploadRun (taskId fileName : String) (now : Nat)
    (store : Nat → Option String) (j : UploadedJson) : UploadOutcome :=
  match j with
  | .malformed => .syncError ("文件解析失败: " ++ "统计数据条数失败")
  | .arr items =>
    let t0 := ImportTaskManager.createTask taskId "json" fileName now
    .taskFinal (importUsersJson t0 items store)

/-! ## Export producer data-fetch phase (`exportUsers`, `src/utils/exportHandlers.js`) -/

namespace ExportProducer

/-- Constant `const batchSize = 1000` of the fetch loop. -/
def batchSize : Nat := 1000

/-- Constant `const dataFetchProgressMax = 95` of the fetch loop. -/
def dataFetchProgressMax : Nat := 95

/-- Batch count `Math.ceil(total / batchSize)` of the fetch loop. -/
def batchCount (total : Nat) : Nat :=
  (total + batchSize - 1) / batchSize

/-- Value of `allUsers.length` after batch `i` (0-based): `findMany` with
`skip: i*batchSize, take: batchSize` returns the next full page of the
`total` matching rows. -/
def fetchedAfterBatch (total i : Nat) : Nat :=
  min ((i + 1) * batchSize) total

/-- The progress written after each fetch batch:
`total > 0 ? Math.min(dataFetchProgressMax, Math.round((allUsers.length / total) * dataFetchProgressMax)) : 0`. -/
def fetchProgress (fetched total : Nat) : Nat :=
  if 0 < total then
    min dataFetchProgressMax (roundHalfUp (fetched * dataFetchProgressMax) total)
  else 0

end ExportProducer

/-! ## Spec-side Progress Model (for refinement comparison only) -/

/-- The Progress Model exactly as the spec words it (§4.2):
`computeProgress(processed, total)` is 0 when `total = 0` and otherwise
`clamp(round(processed / total * 100), 0, 100)` with round-half-up (the
lower clamp is vacuous on naturals). This is the spec's function, to be
compared with the recomputation the two task managers implement. -/
def specComputeProgress (processed total : Nat) : Nat :=
  if total = 0 then 0 else min 100 (roundHalfUp (processed * 100) total)

/-! ## Update sequences -/

/-- The sequence of persisted task states produced by issuing the updates
in `us` one after another through the store-specific `step`
(`ImportTaskManager.updateTask` or `ExportTaskManager.updateTask`). -/
def updateTrace (step : TaskRec → TaskUpdate → TaskRec) :
    TaskRec → List TaskUpdate → List TaskRec
  | _, [] => []
  | t, u :: us =>
    let t' := step t u
    t' :: updateTrace step t' us

/-- A task state whose stored progress agrees with its own counters
(as every state written by a producer that never passes an explicit
progress value does). -/
def progressCoherent (t : TaskRec) : Prop :=
  0 < t.totalRecords → t.progress = jsProgress t.processedRecords t.totalRecords

/-- Bool-valued test that a projection of the listed task states is
non-decreasing between consecutive elements. -/
def nondecBy (f : TaskRec → Nat) : List TaskRec → Bool
  | [] => true
  | [_] => true
  | a :: b :: l => decide (f a ≤ f b) && nondecBy f (b :: l)

/-! ## Helper lemmas -/

theorem roundHalfUp_mono {a b : Nat} (d : Nat) (h : a ≤ b) :
    roundHalfUp a d ≤ roundHalfUp b d :=
  Nat.div_le_div_right (by omega)

theorem jsProgress_mono {p q : Nat} (n : Nat) (h : p ≤ q) :
    jsProgress p n ≤ jsProgress q n :=
  min_le_min le_rfl (roundHalfUp_mono n (by omega))

theorem jsProgress_self {n : Nat} (h : 0 < n) : jsProgress n n = 100 := by
  unfold jsProgress roundHalfUp
  have h201 : 2 * (n * 100) + n = 201 * n := by ring
  rw [h201, Nat.mul_div_mul_right _ _ h]
  rfl

theorem recomputeProgress_status (t : TaskRec) :
    (ImportTaskManager.recomputeProgress t).status = t.status := by
  unfold ImportTaskManager.recomputeProgress
  split <;> rfl

theorem recomputeProgress_eq (t : TaskRec) :
    ImportTaskManager.recomputeProgress t =
      { t with progress := if 0 < t.totalRecords then
          jsProgress t.processedRecords t.totalRecords else t.progress } := by
  unfold ImportTaskManager.recomputeProgress
  split
  · rfl
  · rfl

/-! ## C1 — terminal-state immutability -/

/-- A task that has already reached the terminal status Completed. -/
def tC1 : TaskRec :=
  { ImportTaskManager.createTask "import_1" "json" "f.json" 0 with
    status := Status.completed, progress := 100 }

/-- An update trying to move the task back to Processing. -/
def uC1 : TaskUpdate :=
  { TaskUpdate.none with status := some Status.processing }

/-- C1 counterexample: `updateTask` on a Completed task is neither rejected
nor a no-op — both task managers move the task's status back to
`processing` and change the stored record. -/
theorem C1_counterexample :
    tC1.status = Status.completed ∧
    (ImportTaskManager.updateTask tC1 uC1).status = Status.processing ∧
    (ExportTaskManager.updateTask tC1 uC1).status = Status.processing ∧
    ImportTaskManager.updateTask tC1 uC1 ≠ tC1 ∧
    ExportTaskManager.updateTask tC1 uC1 ≠ tC1 := by
  decide

/-- C1 amended: neither task manager has a terminal-state guard —
`updateTask` merges the requested `status` field unconditionally, whatever
the stored status is, so a Completed or Failed task can still be mutated,
including moving its status back to Processing. -/
theorem C1_no_terminal_guard (t : TaskRec) (u : TaskUpdate) :
    (ImportTaskManager.updateTask t u).status = u.status.getD t.status ∧
    (ExportTaskManager.updateTask t u).status = u.status.getD t.status := by
  refine ⟨?_, ?_⟩
  · rw [ImportTaskManager.updateTask, recomputeProgress_status]
    rfl
  · rw [ExportTaskManager.updateTask]
    dsimp only
    split
    · split <;> rfl
    · rfl

/-! ## C3 — expiry sweep -/

/-- Evaluation of one swept store entry: a stored task survives the sweep
exactly when its age is within the retention window. -/
theorem sweep_bind_eq (now : Nat) (o : Option TaskRec) (t : TaskRec) (h : o = some t) :
    (o.bind fun x =>
      if ImportTaskManager.survivesSweep now x then some x else Option.none) =
    (if now - t.createdAt ≤ ImportTaskManager.expireTimeMs then some t
     else Option.none) := by
  subst h
  rw [Option.some_bind]
  unfold ImportTaskManager.survivesSweep
  by_cases hs : now - t.createdAt ≤ ImportTaskManager.expireTimeMs
  · rw [if_pos (decide_eq_true hs), if_pos hs]
  · rw [if_neg (fun hc => hs (of_decide_eq_true hc)), if_neg hs]

/-- An old Processing task (created at epoch 0). -/
def tC3 : TaskRec :=
  { ImportTaskManager.createTask "import_1" "json" "f.json" 0 with
    status := Status.processing, progress := 50 }

/-- A store holding `tC3` in memory and in its task file. -/
def stC3 : ImportTaskManager.StoreState :=
  ⟨fun k => if k = "import_1" then some tC3 else Option.none,
   fun k => if k = "import_1" then some tC3 else Option.none⟩

/-- C3 counterexample: the sweep has no status guard — a task that is
still Processing but older than the 24-hour window is deleted by
`cleanupExpiredTasks` (it becomes not-found), contradicting the claim
that a Processing task is never deleted regardless of age. -/
theorem C3_counterexample :
    tC3.status = Status.processing ∧
    ImportTaskManager.getTask stC3 "import_1" = some tC3 ∧
    ImportTaskManager.getTask
      (ImportTaskManager.cleanupExpiredTasks (ImportTaskManager.expireTimeMs + 1) stC3)
      "import_1" = Option.none := by
  decide

/-- C3 amended: both sweeps are purely age-based, with no status guard.
For the file-backed import store (assuming the memory cache is coherent
with the task files, as every code path that fills it makes it), a stored
task survives `cleanupExpiredTasks` exactly when `now - createdAt ≤ 24h`,
whatever its status — Processing included — and otherwise becomes
not-found. The DB-backed export sweep keeps a row exactly when
`createdAt ≥ now - 24h`, also regardless of status. -/
theorem C3_age_only_sweep (now : Nat) (st : ImportTaskManager.StoreState)
    (store : String → Option TaskRec) (id eid : String) (t te : TaskRec)
    (hcoh : ∀ k t', st.memory k = some t' →
      st.files (ImportTaskManager.safeTaskId k) = some t')
    (hget : ImportTaskManager.getTask st id = some t)
    (hrow : store eid = some te) :
    ImportTaskManager.getTask (ImportTaskManager.cleanupExpiredTasks now st) id =
      (if now - t.createdAt ≤ ImportTaskManager.expireTimeMs then some t
       else Option.none) ∧
    ExportTaskManager.cleanupExpiredTasks now store eid =
      (if ¬ te.createdAt < now - ImportTaskManager.expireTimeMs then some te
       else Option.none) := by
  constructor
  · unfold ImportTaskManager.getTask at hget ⊢
    unfold ImportTaskManager.cleanupExpiredTasks
    dsimp only
    cases h1 : st.memory id with
    | some t1 =>
      rw [h1] at hget
      have ht : t1 = t := by injection hget
      subst ht
      rw [sweep_bind_eq now (some t1) t1 rfl]
      by_cases hs : now - t1.createdAt ≤ ImportTaskManager.expireTimeMs
      · rw [if_pos hs]
      · rw [if_neg hs]
        dsimp only
        rw [sweep_bind_eq now _ t1 (hcoh id t1 h1), if_neg hs]
    | none =>
      rw [h1] at hget
      dsimp only at hget
      rw [Option.none_bind]
      dsimp only
      rw [sweep_bind_eq now _ t hget]
  · unfold ExportTaskManager.cleanupExpiredTasks
    rw [hrow, Option.some_bind]
    unfold ExportTaskManager.survivesSweep
    by_cases hs : te.createdAt < now - ImportTaskManager.expireTimeMs
    · rw [if_neg (fun hc => (of_decide_eq_true hc) hs), if_neg (fun hn => hn hs)]
    · rw [if_pos (decide_eq_true hs), if_pos hs]

/-- A fresh task for the C3 witness (created at time 500). -/
def tC3w : TaskRec :=
  ImportTaskManager.createTask "import_2" "json" "g.json" 500

/-- A store whose memory cache is empty and whose task-file directory
holds `tC3w`. -/
def stC3w : ImportTaskManager.StoreState :=
  ⟨fun _ => Option.none,
   fun k => if k = "import_2" then some tC3w else Option.none⟩

/-- C3 witness: the amended sweep theorem applied at a concrete store and
a sweep run at `now = 1000` — the fresh task survives in both stores. -/
theorem C3_age_only_sweep_witness :
    ImportTaskManager.getTask
        (ImportTaskManager.cleanupExpiredTasks 1000 stC3w) "import_2" =
      (if (1000 : Nat) - tC3w.createdAt ≤ ImportTaskManager.expireTimeMs
       then some tC3w else Option.none) ∧
    ExportTaskManager.cleanupExpiredTasks 1000 stC3w.files "import_2" =
      (if ¬ tC3w.createdAt < (1000 : Nat) - ImportTaskManager.expireTimeMs
       then some tC3w else Option.none) :=
  C3_age_only_sweep 1000 stC3w stC3w.files "import_2" "import_2" tC3w tC3w
    (fun _ _ h => Option.noConfusion h) (by decide) (by decide)

/-! ## C6 — progress recomputation vs the spec's Progress Model -/

/-- A task whose counters say total 0 but whose stored progress is 5. -/
def tC6 : TaskRec :=
  { ImportTaskManager.createTask "import_1" "json" "f.json" 0 with progress := 5 }

/-- C6 counterexample: the spec's `computeProgress` returns 0 whenever
`total = 0`, but both managers' recomputation simply skips the write when
`totalRecords = 0` and leaves the previously stored progress (here 5)
in place, so the recomputation does not implement the Progress Model
exactly. -/
theorem C6_counterexample :
    specComputeProgress 0 0 = 0 ∧
    tC6.totalRecords = 0 ∧ tC6.processedRecords = 0 ∧
    (ImportTaskManager.updateTask tC6 (countersUpdate 0 0 0)).progress = 5 ∧
    (ExportTaskManager.updateTask tC6 (countersUpdate 0 0 0)).progress = 5 ∧
    (5 : Nat) ≠ 0 := by
  decide

/-- C6 amended: whenever `total > 0` the recomputation agrees exactly with
the spec's `computeProgress` — `min 100 (round-half-up (processed*100/total))`,
where `roundHalfUp` really is the round-half-up of the rational quotient —
and the sample values 33 and 67 hold; but when `total = 0` the code leaves
the stored progress unchanged instead of computing 0 (the spec's value is
seen only because a fresh task starts at progress 0). -/
theorem C6_recompute_vs_progress_model :
    (∀ num den : Nat, 0 < den →
      roundHalfUp num den = Nat.floor ((num : ℚ) / den + 1 / 2)) ∧
    (∀ p total : Nat, 0 < total → jsProgress p total = specComputeProgress p total) ∧
    (∀ t : TaskRec, 0 < t.totalRecords →
      (ImportTaskManager.recomputeProgress t).progress =
        specComputeProgress t.processedRecords t.totalRecords) ∧
    (∀ t : TaskRec, t.totalRecords = 0 →
      (ImportTaskManager.recomputeProgress t).progress = t.progress) ∧
    specComputeProgress 0 0 = 0 ∧
    jsProgress 1 3 = 33 ∧ jsProgress 2 3 = 67 ∧
    specComputeProgress 1 3 = 33 ∧ specComputeProgress 2 3 = 67 := by
  refine ⟨?_, ?_, ?_, ?_, by decide, by decide, by decide, by decide, by decide⟩
  · intro num den h
    have hd : ((den : ℚ)) ≠ 0 := Nat.cast_ne_zero.mpr h.ne'
    have hq : (num : ℚ) / den + 1 / 2 = ((2 * num + den : ℕ) : ℚ) / ((2 * den : ℕ) : ℚ) := by
      push_cast
      field_simp
      ring
    rw [roundHalfUp, hq, Nat.floor_div_nat, Nat.floor_natCast]
  · intro p total h
    rw [specComputeProgress, if_neg h.ne']
    rfl
  · intro t h
    rw [ImportTaskManager.recomputeProgress, if_pos h, specComputeProgress, if_neg h.ne']
    rfl
  · intro t h
    rw [ImportTaskManager.recomputeProgress, if_neg (by omega)]

/-- C6 witness: the amended theorem applied at concrete inputs —
`roundHalfUp` at 100/8 (a half tie, rounded up to 13) and the agreement of
the code's recomputation with the spec's function at 1/3. -/
theorem C6_recompute_vs_progress_model_witness :
    roundHalfUp 100 8 = Nat.floor ((100 : ℚ) / 8 + 1 / 2) ∧
    jsProgress 1 3 = specComputeProgress 1 3 :=
  ⟨C6_recompute_vs_progress_model.1 100 8 (by decide),
   C6_recompute_vs_progress_model.2.1 1 3 (by decide)⟩

/-! ## C7 — explicit progress in updateTask -/

/-- A task mid-import: 2 of 10 records processed. -/
def tC7 : TaskRec :=
  { ImportTaskManager.createTask "import_1" "json" "f.json" 0 with
    status := Status.processing, totalRecords := 10, processedRecords := 2,
    progress := 20 }

/-- An update passing an explicit progress of 77 and nothing else. -/
def uC7 : TaskUpdate :=
  { TaskUpdate.none with progress := some 77 }

/-- C7 counterexample: the import manager recomputes progress from the
counters on every update whenever `totalRecords > 0`, overriding the
explicitly given value — updating with `progress: 77` persists 20, not
77. -/
theorem C7_counterexample :
    uC7.progress = some 77 ∧
    (ImportTaskManager.updateTask tC7 uC7).progress = 20 ∧
    (20 : Nat) ≠ 77 := by
  decide

/-- C7 amended: the export manager persists an explicitly given progress
verbatim; the import manager honours it only when `totalRecords = 0` after
the merge — whenever the merged `totalRecords` is positive the persisted
progress is recomputed from the merged counters, whatever progress the
caller passed. -/
theorem C7_explicit_progress (t : TaskRec) (u : TaskUpdate) (p : Nat)
    (h : u.progress = some p) :
    (ExportTaskManager.updateTask t u).progress = p ∧
    ((applyUpdates t u).totalRecords = 0 →
      (ImportTaskManager.updateTask t u).progress = p) ∧
    (0 < (applyUpdates t u).totalRecords →
      (ImportTaskManager.updateTask t u).progress =
        jsProgress (applyUpdates t u).processedRecords (applyUpdates t u).totalRecords) := by
  refine ⟨?_, ?_, ?_⟩
  · rw [ExportTaskManager.updateTask]
    dsimp only
    rw [if_neg (by rw [h]; exact fun hc => Option.noConfusion hc.1)]
    show u.progress.getD t.progress = p
    rw [h]
    rfl
  · intro h0
    rw [ImportTaskManager.updateTask, ImportTaskManager.recomputeProgress, if_neg (by omega)]
    show u.progress.getD t.progress = p
    rw [h]
    rfl
  · intro h0
    rw [ImportTaskManager.updateTask, ImportTaskManager.recomputeProgress, if_pos h0]

/-- C7 witness: the amended theorem at the concrete mid-import task —
the export manager persists the explicit 77, while the import manager
recomputes 2/10 into 20. -/
theorem C7_explicit_progress_witness :
    (ExportTaskManager.updateTask tC7 uC7).progress = 77 ∧
    (0 < (applyUpdates tC7 uC7).totalRecords →
      (ImportTaskManager.updateTask tC7 uC7).progress =
        jsProgress (applyUpdates tC7 uC7).processedRecords (applyUpdates tC7 uC7).totalRecords) :=
  ⟨(C7_explicit_progress tC7 uC7 77 rfl).1, (C7_explicit_progress tC7 uC7 77 rfl).2.2⟩

/-! ## C8 — export data-fetch phase capping -/

/-- C8: during the export data-fetch phase the progress written after any
batch never exceeds 95, and once the fetch phase has consumed all records
(`processed = total`, `total > 0`) the phase progress is exactly 95 — the
last batch indeed reaches `fetchedAfterBatch = total`. -/
theorem C8_fetch_phase_capped :
    (∀ total i : Nat,
      ExportProducer.fetchProgress (ExportProducer.fetchedAfterBatch total i) total ≤ 95) ∧
    (∀ total : Nat, 0 < total →
      ExportProducer.fetchedAfterBatch total (ExportProducer.batchCount total - 1) = total ∧
      ExportProducer.fetchProgress total total = 95) := by
  constructor
  · intro total i
    rw [ExportProducer.fetchProgress]
    split
    · exact min_le_left _ _
    · exact Nat.zero_le _
  · intro total h
    refine ⟨?_, ?_⟩
    · rw [ExportProducer.fetchedAfterBatch, ExportProducer.batchCount]
      have hmod := Nat.div_add_mod (total + ExportProducer.batchSize - 1) ExportProducer.batchSize
      have hlt : (total + ExportProducer.batchSize - 1) % ExportProducer.batchSize <
          ExportProducer.batchSize := Nat.mod_lt _ (by decide)
      rw [ExportProducer.batchSize] at hmod hlt ⊢
      omega
    · rw [ExportProducer.fetchProgress, if_pos h, ExportProducer.dataFetchProgressMax]
      have h95 : roundHalfUp (total * 95) total = 95 := by
        rw [roundHalfUp]
        have h191 : 2 * (total * 95) + total = 191 * total := by ring
        rw [h191, Nat.mul_div_mul_right _ _ h]
      rw [h95]
      rfl

/-- C8 witness: the capping theorem applied at a concrete export of 2500
records — after the last of the three batches the fetch counter equals the
total and the phase progress is exactly 95. -/
theorem C8_fetch_phase_capped_witness :
    ExportProducer.fetchedAfterBatch 2500 (ExportProducer.batchCount 2500 - 1) = 2500 ∧
    ExportProducer.fetchProgress 2500 2500 = 95 :=
  C8_fetch_phase_capped.2 2500 (by decide)

/-! ## C10 — sanitized file-key collision -/

/-- A task stored under taskId `a_b` (its file stem is `safeTaskId "a_b" = "a_b"`). -/
def tC10 : TaskRec :=
  ImportTaskManager.createTask "a_b" "json" "f.json" 0

/-- The store after `_writeTaskToFile(tC10)` on a fresh instance: the
memory cache is empty (a different serverless instance answers the read)
and the task-file directory holds the record under its sanitized stem. -/
def stC10 : ImportTaskManager.StoreState :=
  ⟨fun _ => Option.none,
   fun k => if k = "a_b" then some tC10 else Option.none⟩

/-- C10: the task-file key sanitizes every character outside
`[a-zA-Z0-9_-]`, so the distinct ids `a.b` and `a_b` collide on the same
file; `getTask "a.b"` then returns the record stored under `a_b` — whose
`taskId` field differs from the argument — instead of not-found, and
writes under either id target the same file path. -/
theorem C10_sanitized_key_collision :
    ("a.b" : String) ≠ "a_b" ∧
    ImportTaskManager.safeTaskId "a.b" = "a_b" ∧
    ImportTaskManager.safeTaskId "a.b" = ImportTaskManager.safeTaskId "a_b" ∧
    ImportTaskManager.getTask stC10 "a.b" = some tC10 ∧
    tC10.taskId ≠ "a.b" := by
  decide

/-! ## C2 — parse errors and synchronous rejection -/

/-- The outcome projection of an upload: the final task status when a task
was created, `none` when the request was rejected synchronously. -/
def UploadOutcome.finalStatus : UploadOutcome → Option Status
  | .syncError _ => Option.none
  | .taskFinal t => some t.status

/-- The error-field projection of an upload outcome. -/
def UploadOutcome.finalError : UploadOutcome → Option String
  | .syncError _ => Option.none
  | .taskFinal t => t.error

/-- C2: a malformed upload is indeed rejected synchronously with a 400
before any task exists, but an upload that `countRecords` can count while
a record lacks a resolvable name is NOT rejected synchronously — the route
creates the task and the dispatched import run persists it as Failed with
the parse error, so a task does end in status Failed because of a
parse-level error. The claim's second half fails on the code
(`countRecords` never validates the name column). -/
theorem C2_parse_error_yields_failed_task :
    importUploadRun "import_1" "u.json" 0 (fun _ => Option.none) .malformed =
      .syncError ("文件解析失败: " ++ "统计数据条数失败") ∧
    countRecordsJson (.arr [Option.none]) = .ok 1 ∧
    (importUploadRun "import_1" "u.json" 0 (fun _ => Option.none)
        (.arr [Option.none])).finalStatus = some Status.failed ∧
    (importUploadRun "import_1" "u.json" 0 (fun _ => Option.none)
        (.arr [Option.none])).finalError =
      some "解析JSON文件失败: 第 1 行缺少用户名字段" := by
  refine ⟨rfl, rfl, ?_, ?_⟩ <;> decide

/-! ## Field lemmas for the import store -/

namespace ImportTaskManager

@[simp] theorem updateTask_status (t : TaskRec) (u : TaskUpdate) :
    (updateTask t u).status = u.status.getD t.status := by
  rw [updateTask, recomputeProgress_status]
  rfl

@[simp] theorem updateTask_totalRecords (t : TaskRec) (u : TaskUpdate) :
    (updateTask t u).totalRecords = u.totalRecords.getD t.totalRecords := by
  rw [updateTask, recomputeProgress_eq]
  rfl

@[simp] theorem updateTask_processedRecords (t : TaskRec) (u : TaskUpdate) :
    (updateTask t u).processedRecords = u.processedRecords.getD t.processedRecords := by
  rw [updateTask, recomputeProgress_eq]
  rfl

@[simp] theorem updateTask_successRecords (t : TaskRec) (u : TaskUpdate) :
    (updateTask t u).successRecords = u.successRecords.getD t.successRecords := by
  rw [updateTask, recomputeProgress_eq]
  rfl

@[simp] theorem updateTask_failedRecords (t : TaskRec) (u : TaskUpdate) :
    (updateTask t u).failedRecords = u.failedRecords.getD t.failedRecords := by
  rw [updateTask, recomputeProgress_eq]
  rfl

@[simp] theorem updateTask_errors (t : TaskRec) (u : TaskUpdate) :
    (updateTask t u).errors = t.errors := by
  rw [updateTask, recomputeProgress_eq]
  rfl

@[simp] theorem updateTask_progress (t : TaskRec) (u : TaskUpdate) :
    (updateTask t u).progress =
      if 0 < u.totalRecords.getD t.totalRecords then
        jsProgress (u.processedRecords.getD t.processedRecords)
          (u.totalRecords.getD t.totalRecords)
      else u.progress.getD t.progress := by
  rw [updateTask, recomputeProgress_eq]
  rfl

end ImportTaskManager

/-! ## Import run lemmas -/

/-- Splitting a record list by the failure predicate preserves its length. -/
theorem length_filter_split (rs : List ImportRecord) :
    (rs.filter fun x => !recordFails x).length + (rs.filter recordFails).length
      = rs.length := by
  induction rs with
  | nil => rfl
  | cons r rs ih =>
    by_cases h : recordFails r
    · simp [List.filter_cons, h]
      omega
    · simp [List.filter_cons, h]
      omega

/-- The error list built by `failingEntriesFrom` has one entry per failing
record. -/
theorem failingEntriesFrom_length (rs : List ImportRecord) :
    ∀ n : Nat, (failingEntriesFrom n rs).length = (rs.filter recordFails).length := by
  induction rs with
  | nil => intro n; rfl
  | cons r rs ih =>
    intro n
    rw [failingEntriesFrom]
    cases hf : recordFailure r with
    | some msg =>
      have hfails : recordFails r = true := by rw [recordFails, hf]; rfl
      rw [List.filter_cons]
      simp [hfails, ih]
    | none =>
      have hfails : recordFails r = false := by rw [recordFails, hf]; rfl
      rw [List.filter_cons]
      simp [hfails, ih]

/-- Invariants of the per-record import loop: the loop never touches
`status` or `totalRecords`, appends exactly the failing entries to
`errors`, and its two counters count the succeeding and the failing
records. -/
theorem importLoop_spec (rs : List ImportRecord) :
    ∀ (t : TaskRec) (processed succ fail : Nat),
      (importLoop t processed succ fail rs).1.status = t.status ∧
      (importLoop t processed succ fail rs).1.totalRecords = t.totalRecords ∧
      (importLoop t processed succ fail rs).1.errors =
        t.errors ++ failingEntriesFrom processed rs ∧
      (importLoop t processed succ fail rs).2.1 =
        succ + (rs.filter fun x => !recordFails x).length ∧
      (importLoop t processed succ fail rs).2.2 =
        fail + (rs.filter recordFails).length := by
  induction rs with
  | nil =>
    intro t processed succ fail
    simp [importLoop, failingEntriesFrom]
  | cons r rs ih =>
    intro t processed succ fail
    rw [importLoop]
    cases hf : recordFailure r with
    | some msg =>
      dsimp only
      have hfails : recordFails r = true := by rw [recordFails, hf]; rfl
      obtain ⟨ih1, ih2, ih3, ih4, ih5⟩ :=
        ih (ImportTaskManager.updateTask (ImportTaskManager.addError t (processed + 1, msg))
              (countersUpdate (processed + 1) succ (fail + 1)))
           (processed + 1) succ (fail + 1)
      refine ⟨?_, ?_, ?_, ?_, ?_⟩
      · rw [ih1, ImportTaskManager.updateTask_status]
        rfl
      · rw [ih2, ImportTaskManager.updateTask_totalRecords]
        rfl
      · rw [ih3, ImportTaskManager.updateTask_errors]
        show (t.errors ++ [(processed + 1, msg)]) ++ _ = _
        rw [List.append_assoc, failingEntriesFrom, hf]
        rfl
      · rw [ih4, List.filter_cons]
        simp [hfails]
      · rw [ih5, List.filter_cons]
        simp [hfails]
        omega
    | none =>
      dsimp only
      have hfails : recordFails r = false := by rw [recordFails, hf]; rfl
      obtain ⟨ih1, ih2, ih3, ih4, ih5⟩ :=
        ih (ImportTaskManager.updateTask t (countersUpdate (processed + 1) (succ + 1) fail))
           (processed + 1) (succ + 1) fail
      refine ⟨?_, ?_, ?_, ?_, ?_⟩
      · rw [ih1, ImportTaskManager.updateTask_status]
        rfl
      · rw [ih2, ImportTaskManager.updateTask_totalRecords]
        rfl
      · rw [ih3, ImportTaskManager.updateTask_errors, failingEntriesFrom, hf]
      · rw [ih4, List.filter_cons]
        simp [hfails]
        omega
      · rw [ih5, List.filter_cons]
        simp [hfails]

/-- The final state of a successful (non-empty) import run: Completed,
progress 100, `totalRecords = processedRecords = N`, success/failure
counters splitting `N`, and the error entries of the failing records
appended to the initial error list. -/
theorem importUsersRun_spec (t0 : TaskRec) (records : List ImportRecord)
    (hne : records ≠ []) :
    (importUsersRun t0 records).status = Status.completed ∧
    (importUsersRun t0 records).progress = 100 ∧
    (importUsersRun t0 records).totalRecords = records.length ∧
    (importUsersRun t0 records).processedRecords = records.length ∧
    (importUsersRun t0 records).successRecords =
      records.length - (records.filter recordFails).length ∧
    (importUsersRun t0 records).failedRecords = (records.filter recordFails).length ∧
    (importUsersRun t0 records).errors = t0.errors ++ failingEntriesFrom 0 records := by
  have he : records.isEmpty = false := by
    cases records with
    | nil => exact absurd rfl hne
    | cons r rs => rfl
  have hlen : 0 < records.length := by
    cases records with
    | nil => exact absurd rfl hne
    | cons r rs => simp
  rw [importUsersRun, if_neg (by rw [he]; exact Bool.false_ne_true)]
  obtain ⟨h1, h2, h3, h4, h5⟩ :=
    importLoop_spec records
      (ImportTaskManager.updateTask t0 (processingUpdate records.length)) 0 0 0
  dsimp only
  refine ⟨?_, ?_, ?_, ?_, ?_, ?_, ?_⟩
  · rw [ImportTaskManager.updateTask_status]
    rfl
  · rw [ImportTaskManager.updateTask_progress]
    have htot : ((completedUpdate records.length
        (importLoop (ImportTaskManager.updateTask t0 (processingUpdate records.length))
          0 0 0 records).2.1
        (importLoop (ImportTaskManager.updateTask t0 (processingUpdate records.length))
          0 0 0 records).2.2).totalRecords).getD
        (importLoop (ImportTaskManager.updateTask t0 (processingUpdate records.length))
          0 0 0 records).1.totalRecords = records.length := by
      show (importLoop (ImportTaskManager.updateTask t0 (processingUpdate records.length))
          0 0 0 records).1.totalRecords = records.length
      rw [h2, ImportTaskManager.updateTask_totalRecords]
      rfl
    rw [htot]
    rw [if_pos hlen]
    show jsProgress records.length records.length = 100
    exact jsProgress_self hlen
  · rw [ImportTaskManager.updateTask_totalRecords]
    show (importLoop _ 0 0 0 records).1.totalRecords = records.length
    rw [h2, ImportTaskManager.updateTask_totalRecords]
    rfl
  · rw [ImportTaskManager.updateTask_processedRecords]
    rfl
  · rw [ImportTaskManager.updateTask_successRecords]
    show (importLoop _ 0 0 0 records).2.1 = _
    rw [h4]
    have := length_filter_split records
    omega
  · rw [ImportTaskManager.updateTask_failedRecords]
    show (importLoop _ 0 0 0 records).2.2 = _
    rw [h5]
    omega
  · rw [ImportTaskManager.updateTask_errors, h3, ImportTaskManager.updateTask_errors]

/-! ## C9 — partial-failure completion of import -/

/-- C9: for every non-empty parsed batch, the import run ends Completed
with progress 100; `totalRecords = processedRecords = N`;
`successRecords = N − k` and `failedRecords = k` where `k` counts the
records failing validation or the store insert; the counters sum to
`processedRecords`; and the task's error list is exactly the `k` entries
`(position, message)` of the failing records — per-record failures never
abort the batch or make the task Failed. -/
theorem C9_partial_failure_completion (taskId format fileName : String) (now : Nat)
    (records : List ImportRecord) (hne : records ≠ []) :
    let fin := importUsersRun
      (ImportTaskManager.createTask taskId format fileName now) records
    let k := (records.filter recordFails).length
    fin.status = Status.completed ∧
    fin.progress = 100 ∧
    fin.totalRecords = records.length ∧
    fin.processedRecords = records.length ∧
    fin.successRecords = records.length - k ∧
    fin.failedRecords = k ∧
    fin.successRecords + fin.failedRecords = fin.processedRecords ∧
    fin.errors = failingEntriesFrom 0 records ∧
    fin.errors.length = k := by
  intro fin k
  obtain ⟨h1, h2, h3, h4, h5, h6, h7⟩ :=
    importUsersRun_spec (ImportTaskManager.createTask taskId format fileName now)
      records hne
  have herr : fin.errors = failingEntriesFrom 0 records := by
    rw [show fin.errors = _ from h7]
    rfl
  refine ⟨h1, h2, h3, h4, h5, h6, ?_, herr, ?_⟩
  · rw [h4, h5, h6]
    have := length_filter_split records
    omega
  · rw [herr, failingEntriesFrom_length]

/-- The spec's own example batch: 10 records of which the 3rd and the 7th
fail validation (empty name). -/
def recsC9 : List ImportRecord :=
  [⟨"u1", Option.none⟩, ⟨"u2", Option.none⟩, ⟨"", Option.none⟩,
   ⟨"u4", Option.none⟩, ⟨"u5", Option.none⟩, ⟨"u6", Option.none⟩,
   ⟨"", Option.none⟩, ⟨"u8", Option.none⟩, ⟨"u9", Option.none⟩,
   ⟨"u10", Option.none⟩]

/-- C9 witness: the completion theorem applied to the spec's example —
Completed with totals 10/8/2 and the two error entries naming records 3
and 7. -/
theorem C9_partial_failure_completion_witness :
    (importUsersRun (ImportTaskManager.createTask "import_1" "json" "f.json" 0)
      recsC9).status = Status.completed ∧
    (importUsersRun (ImportTaskManager.createTask "import_1" "json" "f.json" 0)
      recsC9).totalRecords = 10 ∧
    (importUsersRun (ImportTaskManager.createTask "import_1" "json" "f.json" 0)
      recsC9).successRecords = 8 ∧
    (importUsersRun (ImportTaskManager.createTask "import_1" "json" "f.json" 0)
      recsC9).failedRecords = 2 ∧
    (importUsersRun (ImportTaskManager.createTask "import_1" "json" "f.json" 0)
      recsC9).errors = [(3, "用户名不能为空"), (7, "用户名不能为空")] := by
  have h := C9_partial_failure_completion "import_1" "json" "f.json" 0 recsC9
    (by decide)
  exact ⟨h.1, h.2.2.1, h.2.2.2.2.1, h.2.2.2.2.2.1, h.2.2.2.2.2.2.2.1⟩

/-! ## C4 — progress 100 vs status Completed -/

/-- The persisted snapshots written by the per-record loop of
`importUsers`, in order: on a failing record first the `addError` write,
then the counter update; on a succeeding record the counter update. -/
def importLoopTrace : TaskRec → Nat → Nat → Nat → List ImportRecord → List TaskRec
  | _, _, _, _, [] => []
  | t, processed, succ, fail, r :: rs =>
    let processed' := processed + 1
    match recordFailure r with
    | some msg =>
      let t1 := ImportTaskManager.addError t (processed', msg)
      let t2 := ImportTaskManager.updateTask t1 (countersUpdate processed' succ (fail + 1))
      t1 :: t2 :: importLoopTrace t2 processed' succ (fail + 1) rs
    | Option.none =>
      let t2 := ImportTaskManager.updateTask t (countersUpdate processed' (succ + 1) fail)
      t2 :: importLoopTrace t2 processed' (succ + 1) fail rs

/-- Neither `addError` nor a counter update changes the status, so every
snapshot written by the loop keeps the status of the state the loop
started from. -/
theorem importLoopTrace_status (rs : List ImportRecord) :
    ∀ (t : TaskRec) (processed succ fail : Nat),
      ∀ s ∈ importLoopTrace t processed succ fail rs, s.status = t.status := by
  induction rs with
  | nil =>
    intro t processed succ fail s hs
    simp [importLoopTrace] at hs
  | cons r rs ih =>
    intro t processed succ fail s hs
    rw [importLoopTrace] at hs
    cases hf : recordFailure r with
    | some msg =>
      rw [hf] at hs
      dsimp only at hs
      rcases List.mem_cons.mp hs with h1 | hs2
      · subst h1
        rfl
      rcases List.mem_cons.mp hs2 with h2 | hs3
      · subst h2
        rw [ImportTaskManager.updateTask_status]
        rfl
      · have := ih _ (processed + 1) succ (fail + 1) s hs3
        rw [this, ImportTaskManager.updateTask_status]
        rfl
    | none =>
      rw [hf] at hs
      dsimp only at hs
      rcases List.mem_cons.mp hs with h1 | hs2
      · subst h1
        rw [ImportTaskManager.updateTask_status]
        rfl
      · have := ih _ (processed + 1) (succ + 1) fail s hs2
        rw [this, ImportTaskManager.updateTask_status]
        rfl

/-- The full sequence of task states persisted by an `importUsers` run:
on an empty parse the single Failed write; otherwise the Processing
transition, every loop write, and the final Completed write. -/
def importRunTrace (t0 : TaskRec) (records : List ImportRecord) : List TaskRec :=
  if records.isEmpty then
    [ImportTaskManager.updateTask t0 (failedUpdate "文件中没有有效的数据")]
  else
    let t1 := ImportTaskManager.updateTask t0 (processingUpdate records.length)
    t1 :: (importLoopTrace t1 0 0 0 records ++ [importUsersRun t0 records])

/-- A one-record batch whose single record succeeds. -/
def recsC4 : List ImportRecord := [⟨"u1", Option.none⟩]

/-- The state the import producer persists right after processing the last
record of `recsC4`: the counter update with `processedRecords = totalRecords`. -/
def tC4mid : TaskRec :=
  ImportTaskManager.updateTask
    (ImportTaskManager.updateTask
      (ImportTaskManager.createTask "import_1" "json" "f.json" 0)
      (processingUpdate 1))
    (countersUpdate 1 1 0)

/-- C4 counterexample: after the last record's counter update the
recomputed progress is already 100 while the status is still Processing —
a persisted state of the import producer with `progress = 100` and
`status ≠ Completed`, refuting the claimed equivalence. -/
theorem C4_counterexample :
    tC4mid ∈ importRunTrace
      (ImportTaskManager.createTask "import_1" "json" "f.json" 0) recsC4 ∧
    tC4mid.progress = 100 ∧
    tC4mid.status = Status.processing := by
  decide

/-- C4 amended: one direction of the claimed equivalence holds — every
state the import producer persists whose status is Completed has
progress 100 (only the final write is Completed, and it recomputes
progress to 100); the converse fails, since the last counter update
reaches progress 100 while still Processing. -/
theorem C4_completed_implies_progress100 (taskId format fileName : String)
    (now : Nat) (records : List ImportRecord) :
    ∀ s ∈ importRunTrace
      (ImportTaskManager.createTask taskId format fileName now) records,
      s.status = Status.completed → s.progress = 100 := by
  intro s hs hc
  rw [importRunTrace] at hs
  cases records with
  | nil =>
    rw [if_pos (show ([] : List ImportRecord).isEmpty = true from rfl)] at hs
    rcases List.mem_singleton.mp hs with rfl
    simp [ImportTaskManager.updateTask_status, failedUpdate, TaskUpdate.none] at hc
  | cons r rs =>
    rw [if_neg (show ¬(r :: rs).isEmpty = true from Bool.false_ne_true)] at hs
    dsimp only at hs
    rcases List.mem_cons.mp hs with h1 | hs2
    · subst h1
      simp [ImportTaskManager.updateTask_status, processingUpdate, TaskUpdate.none] at hc
    rcases List.mem_append.mp hs2 with h3 | h4
    · have hst := importLoopTrace_status (r :: rs) _ 0 0 0 s h3
      rw [hst, ImportTaskManager.updateTask_status] at hc
      simp [processingUpdate, TaskUpdate.none] at hc
    · rcases List.mem_singleton.mp h4 with rfl
      exact (importUsersRun_spec _ (r :: rs) (by simp)).2.1

/-- C4 witness: the amended theorem applied to the concrete one-record
run — the final Completed state of the trace has progress 100. -/
theorem C4_completed_implies_progress100_witness :
    (importUsersRun (ImportTaskManager.createTask "import_1" "json" "f.json" 0)
      recsC4).progress = 100 :=
  C4_completed_implies_progress100 "import_1" "json" "f.json" 0 recsC4
    (importUsersRun (ImportTaskManager.createTask "import_1" "json" "f.json" 0) recsC4)
    (by decide) (by decide)

/-! ## C5 — progress monotonicity -/

@[simp] theorem applyUpdates_progress (t : TaskRec) (u : TaskUpdate) :
    (applyUpdates t u).progress = u.progress.getD t.progress := rfl

@[simp] theorem applyUpdates_processedRecords (t : TaskRec) (u : TaskUpdate) :
    (applyUpdates t u).processedRecords = u.processedRecords.getD t.processedRecords := rfl

@[simp] theorem applyUpdates_totalRecords (t : TaskRec) (u : TaskUpdate) :
    (applyUpdates t u).totalRecords = u.totalRecords.getD t.totalRecords := rfl

/-- Unfolded form of the export manager's update: the recompute branch is
entered exactly when `progress` is absent and a counter is present, and it
only fills in `updates.progress`. -/
theorem exportUpdateTask_eq (t : TaskRec) (u : TaskUpdate) :
    ExportTaskManager.updateTask t u =
      if u.progress = Option.none ∧
          (u.processedRecords ≠ Option.none ∨ u.totalRecords ≠ Option.none) then
        (if 0 < u.totalRecords.getD t.totalRecords then
          applyUpdates t { u with progress := some (jsProgress
            (u.processedRecords.getD t.processedRecords)
            (u.totalRecords.getD t.totalRecords)) }
        else applyUpdates t u)
      else applyUpdates t u := by
  rw [ExportTaskManager.updateTask]
  dsimp only
  split
  · split
    · rfl
    · rfl
  · rfl

/-- One import-store update without explicit `progress` and without
touching `totalRecords` preserves counter-coherence and cannot lower the
stored progress when `processedRecords` does not decrease. -/
theorem import_step_mono (t : TaskRec) (u : TaskUpdate)
    (hp : u.progress = Option.none) (ht : u.totalRecords = Option.none)
    (hcoh : progressCoherent t) :
    progressCoherent (ImportTaskManager.updateTask t u) ∧
    (t.processedRecords ≤ (ImportTaskManager.updateTask t u).processedRecords →
      t.progress ≤ (ImportTaskManager.updateTask t u).progress) := by
  have htot : (ImportTaskManager.updateTask t u).totalRecords = t.totalRecords := by
    rw [ImportTaskManager.updateTask_totalRecords, ht]
    rfl
  have hprog : (ImportTaskManager.updateTask t u).progress =
      if 0 < t.totalRecords then
        jsProgress (u.processedRecords.getD t.processedRecords) t.totalRecords
      else t.progress := by
    rw [ImportTaskManager.updateTask_progress, ht, hp]
    rfl
  constructor
  · intro hpos
    rw [htot] at hpos
    rw [hprog, if_pos hpos, ImportTaskManager.updateTask_processedRecords, htot]
  · intro hle
    rw [hprog]
    by_cases hpos : 0 < t.totalRecords
    · rw [if_pos hpos, hcoh hpos]
      apply jsProgress_mono
      rw [ImportTaskManager.updateTask_processedRecords] at hle
      exact hle
    · rw [if_neg hpos]

/-- The export-store analogue of `import_step_mono`. -/
theorem export_step_mono (t : TaskRec) (u : TaskUpdate)
    (hp : u.progress = Option.none) (ht : u.totalRecords = Option.none)
    (hcoh : progressCoherent t) :
    progressCoherent (ExportTaskManager.updateTask t u) ∧
    (t.processedRecords ≤ (ExportTaskManager.updateTask t u).processedRecords →
      t.progress ≤ (ExportTaskManager.updateTask t u).progress) := by
  rw [exportUpdateTask_eq]
  cases hpr : u.processedRecords with
  | none =>
    rw [if_neg (by simp [hp, ht, hpr])]
    constructor
    · intro hpos
      simp only [applyUpdates_totalRecords, ht, Option.getD_none] at hpos
      simp only [progressCoherent, applyUpdates_totalRecords,
        applyUpdates_processedRecords, applyUpdates_progress,
        hp, ht, hpr, Option.getD_none]
      exact hcoh hpos
    · intro hle
      simp only [applyUpdates_progress, hp, Option.getD_none]
      exact le_refl _
  | some p =>
    rw [if_pos ⟨hp, Or.inl (by simp [hpr])⟩]
    by_cases hpos : 0 < t.totalRecords
    · rw [if_pos (by rw [ht]; exact hpos)]
      constructor
      · simp only [progressCoherent, applyUpdates_totalRecords,
          applyUpdates_processedRecords, applyUpdates_progress,
          ht, hpr, Option.getD_none, Option.getD_some]
        exact fun _ => trivial
      · intro hle
        simp only [applyUpdates_progress, applyUpdates_processedRecords,
          ht, hpr, Option.getD_none, Option.getD_some] at hle ⊢
        rw [hcoh hpos]
        exact jsProgress_mono _ hle
    · rw [if_neg (by rw [ht]; exact hpos)]
      constructor
      · intro hx
        simp only [applyUpdates_totalRecords, ht, Option.getD_none] at hx
        exact absurd hx hpos
      · intro hle
        simp only [applyUpdates_progress, hp, Option.getD_none]
        exact le_refl _

/-- Lifting a per-step monotonicity fact along a whole update sequence:
if the persisted `processedRecords` never decrease, the persisted
`progress` never decreases either. -/
theorem trace_progress_mono (step : TaskRec → TaskUpdate → TaskRec)
    (hstep : ∀ t u, u.progress = Option.none → u.totalRecords = Option.none →
      progressCoherent t →
      progressCoherent (step t u) ∧
      (t.processedRecords ≤ (step t u).processedRecords →
        t.progress ≤ (step t u).progress)) :
    ∀ (us : List TaskUpdate) (t0 : TaskRec), progressCoherent t0 →
      (∀ u ∈ us, u.progress = Option.none ∧ u.totalRecords = Option.none) →
      nondecBy (fun s => s.processedRecords) (t0 :: updateTrace step t0 us) = true →
      nondecBy (fun s => s.progress) (t0 :: updateTrace step t0 us) = true := by
  intro us
  induction us with
  | nil =>
    intro t0 hcoh hus hproc
    rfl
  | cons u us ih =>
    intro t0 hcoh hus hproc
    obtain ⟨hp, ht⟩ := hus u (List.mem_cons_self u us)
    obtain ⟨hc1, hm1⟩ := hstep t0 u hp ht hcoh
    rw [show updateTrace step t0 (u :: us) =
        step t0 u :: updateTrace step (step t0 u) us from rfl] at hproc ⊢
    rw [nondecBy] at hproc
    rw [nondecBy]
    rcases (Bool.and_eq_true _ _).mp hproc with ⟨hle, hrest⟩
    have hih := ih (step t0 u) hc1 (fun v hv => hus v (List.mem_cons_of_mem u hv)) hrest
    rw [hih]
    rw [Bool.and_true]
    exact decide_eq_true (hm1 (of_decide_eq_true hle))

/-- A fresh-start export task: 10 total records, none processed yet,
progress 0 — its stored progress agrees with its counters. -/
def tC5 : TaskRec :=
  { ImportTaskManager.createTask "export_1" "json" "f.json" 0 with
    status := Status.processing, totalRecords := 10 }

/-- Two updates with non-decreasing `processedRecords`, constant (absent)
`totalRecords`, and explicit decreasing `progress` values. -/
def usC5 : List TaskUpdate :=
  [{ TaskUpdate.none with processedRecords := some 1, progress := some 50 },
   { TaskUpdate.none with processedRecords := some 2, progress := some 10 }]

/-- C5 counterexample: the export manager persists an explicitly passed
`progress` verbatim, so a call sequence with non-decreasing
`processedRecords` and constant `totalRecords` can still persist the
decreasing progress sequence 50, 10 — the claim fails as universally
stated over all `updateTask` call sequences. -/
theorem C5_counterexample :
    (∀ u ∈ usC5, u.totalRecords = Option.none) ∧
    nondecBy (fun s => s.processedRecords)
      (tC5 :: updateTrace ExportTaskManager.updateTask tC5 usC5) = true ∧
    (updateTrace ExportTaskManager.updateTask tC5 usC5).map (fun s => s.progress)
      = [50, 10] ∧
    nondecBy (fun s => s.progress)
      (updateTrace ExportTaskManager.updateTask tC5 usC5) = false := by
  refine ⟨?_, ?_, ?_, ?_⟩ <;> decide

/-- C5 amended: for update sequences that never pass an explicit
`progress` and never touch `totalRecords`, starting from a state whose
progress agrees with its counters, non-decreasing `processedRecords`
yields a non-decreasing persisted progress sequence — in both task
managers. With an explicit `progress` field the export manager persists
it verbatim, so monotonicity can be violated (see the counterexample). -/
theorem C5_progress_monotonic (t0 : TaskRec) (us : List TaskUpdate)
    (hcoh : progressCoherent t0)
    (hus : ∀ u ∈ us, u.progress = Option.none ∧ u.totalRecords = Option.none) :
    (nondecBy (fun s => s.processedRecords)
        (t0 :: updateTrace ImportTaskManager.updateTask t0 us) = true →
      nondecBy (fun s => s.progress)
        (t0 :: updateTrace ImportTaskManager.updateTask t0 us) = true) ∧
    (nondecBy (fun s => s.processedRecords)
        (t0 :: updateTrace ExportTaskManager.updateTask t0 us) = true →
      nondecBy (fun s => s.progress)
        (t0 :: updateTrace ExportTaskManager.updateTask t0 us) = true) :=
  ⟨fun hproc => trace_progress_mono ImportTaskManager.updateTask
      (fun t u hp ht hc => import_step_mono t u hp ht hc) us t0 hcoh hus hproc,
   fun hproc => trace_progress_mono ExportTaskManager.updateTask
      (fun t u hp ht hc => export_step_mono t u hp ht hc) us t0 hcoh hus hproc⟩

/-- Counter-only updates (as the import producer issues them), processing
3 then 7 of the 10 records. -/
def usC5w : List TaskUpdate :=
  [{ TaskUpdate.none with processedRecords := some 3, successRecords := some 3 },
   { TaskUpdate.none with processedRecords := some 7, successRecords := some 6 }]

/-- C5 witness: the monotonicity theorem applied to the concrete task
`tC5` and the counter-only updates `usC5w` for both managers. -/
theorem C5_progress_monotonic_witness :
    nondecBy (fun s => s.progress)
      (tC5 :: updateTrace ImportTaskManager.updateTask tC5 usC5w) = true ∧
    nondecBy (fun s => s.progress)
      (tC5 :: updateTrace ExportTaskManager.updateTask tC5 usC5w) = true :=
  ⟨(C5_progress_monotonic tC5 usC5w (fun _ => by decide) (by decide)).1 (by decide),
   (C5_progress_monotonic tC5 usC5w (fun _ => by decide) (by decide)).2 (by decide)⟩
